import Mathlib

/-!
Shallow embedding of the WinkWatcher bot (src/main.py) and verification of
its specification.  The Python program polls a marketplace for the cheapest
item of each rarity, converts prices, tracks a per-rarity floor price in a
SQLite store, and raises deduplicated alerts when a price drops far enough
below the stored floor.

Modelling conventions:
- Python floats are modelled as rationals (ℚ); `round(x, 2)` is modelled as
  rounding to the nearest multiple of 1/100 (`round2`).  The program never
  relies on half-to-even tie behaviour in any property below.
- SQLite rows are modelled as finite maps (functions into `Option`); a NULL
  column is `none`.
- `None`-or-value Python variables are `Option`; `isinstance(x, str)` guards
  become pattern matches on `Option String`.
- The only effect that is not a store update is the Telegram delivery
  sequence inside the `try:` block of `run`; whether that block completes
  without raising is an input `sendOk : Bool` of the step function.
-/

/-- Model of Python `round(q, 2)`: round to the nearest multiple of 1/100. -/
def round2 (q : ℚ) : ℚ := ((⌊q * 100 + 1/2⌋ : ℤ) : ℚ) / 100

/-- Python truthiness of an optional string: `None` and `""` are falsy. -/
def truthyOpt : Option String → Bool
  | none => false
  | some s => !(s == "")

/-- One row of the `floors` table: `price` and `threshold_percent` are
nullable REAL columns (`updated_at` carries no logic and is omitted). -/
structure FloorRow where
  price : Option ℚ
  threshold : Option ℚ
deriving DecidableEq

/-- The persistent store: the `floors` table keyed by rarity and the
`notifications` table keyed by item id (its `last_price` column). -/
structure DB where
  floors : String → Option FloorRow
  notifications : String → Option ℚ

/-- Point update of a string-keyed map. -/
def updateFn {α : Type} (f : String → Option α) (k : String) (v : α) :
    String → Option α :=
  fun k' => if k' = k then some v else f k'

/-- `get_floor`: returns the `price` column of the rarity's row; absent row
or NULL price (which makes `float(v)` raise in Python) yields `None`. -/
def get_floor (db : DB) (rarity : String) : Option ℚ :=
  match db.floors rarity with
  | none => none
  | some row => row.price

/-- `set_floor`: upsert storing `round(price, 2)`; on conflict only the
price (and timestamp) column is replaced, a fresh insert leaves
`threshold_percent` NULL. -/
def set_floor (db : DB) (rarity : String) (price : ℚ) : DB :=
  { db with
    floors := updateFn db.floors rarity
      (match db.floors rarity with
       | some row => { row with price := some (round2 price) }
       | none => ⟨some (round2 price), none⟩) }

/-- `get_notified`: the stored `last_price` for an item id, if any. -/
def get_notified (db : DB) (item_id : String) : Option ℚ :=
  db.notifications item_id

/-- `set_notified`: upsert storing `round(price, 2)`. -/
def set_notified (db : DB) (item_id : String) (price : ℚ) : DB :=
  { db with notifications := updateFn db.notifications item_id (round2 price) }

/-- `get_threshold`: the rarity's `threshold_percent`, defaulting to 50
when the row is absent or the column is NULL. -/
def get_threshold (db : DB) (rarity : String) : ℚ :=
  match db.floors rarity with
  | none => 50
  | some row => row.threshold.getD 50

/-- `set_threshold`: upsert; on conflict only `threshold_percent` is
replaced, a fresh insert has a NULL price. -/
def set_threshold (db : DB) (rarity : String) (percent : ℚ) : DB :=
  { db with
    floors := updateFn db.floors rarity
      (match db.floors rarity with
       | some row => { row with threshold := some percent }
       | none => ⟨none, some percent⟩) }

/-- The store with both tables empty. -/
def emptyDB : DB := ⟨fun _ => none, fun _ => none⟩

/-- The fields of one enriched result dict `r` that the decision loop in
`run` reads: `rarity`, `price_usd`, `item_id` and `image_url`.  A field
whose Python value is absent or fails the relevant `isinstance` guard is
`none`. -/
structure Item where
  rarity : Option String
  price_usd : Option ℚ
  item_id : Option String
  image_url : Option String
deriving DecidableEq

/-- Delivery environment: whether a bot object exists (`BOT_TOKEN` set) and
whether `CHANNEL_ID` is a truthy string. -/
structure Env where
  bot : Bool
  channel : Bool
deriving DecidableEq

/-- Outcome of processing one enriched result: the updated store plus the
control-flow facts of the alert branch.  `fired` is the comparison on line
605; `shouldNotify` is the dedup verdict; `attempted` means the
notification branch was entered; `delivered` means the Telegram `try:`
block completed, after which the floor and notification writes happen. -/
structure StepResult where
  db : DB
  fired : Bool
  shouldNotify : Bool
  attempted : Bool
  delivered : Bool

/-- The alert branch of `run` (lines 596-645) for one enriched result:
floor/threshold lookup, the rounded comparison, the dedup check against
`notifications`, the guarded Telegram delivery, and on success the
`set_floor` / `set_notified` writes. -/
def alertPhase (env : Env) (db : DB) (r : Item) (sendOk : Bool) : StepResult :=
  let floorPrice : Option ℚ :=
    match r.rarity with
    | some ra => get_floor db ra
    | none => none
  let th : ℚ :=
    match r.rarity with
    | some ra => get_threshold db ra
    | none => 50
  match r.price_usd, floorPrice with
  | some p, some f =>
    if round2 p ≤ round2 (f * (1 - th / 100)) then
      let lastNotified : Option ℚ :=
        match r.item_id with
        | some iid => get_notified db iid
        | none => none
      let sn : Bool :=
        match lastNotified with
        | none => true
        | some lastp => decide (p < lastp)
      if sn && env.bot && env.channel && truthyOpt r.image_url then
        if sendOk then
          let db1 :=
            match r.rarity with
            | some ra => set_floor db ra p
            | none => db
          let db2 :=
            match r.item_id with
            | some iid => set_notified db1 iid p
            | none => db1
          ⟨db2, true, sn, true, true⟩
        else ⟨db, true, sn, true, false⟩
      else ⟨db, true, sn, false, false⟩
    else ⟨db, false, false, false, false⟩
  | _, _ => ⟨db, false, false, false, false⟩

/-- The floor-refresh tail of the loop body (lines 646-651): an
unconditional `set_floor` on tick 1 and on every tick divisible by 3,
whenever the price is present and the rarity is a string. -/
def refreshPhase (db : DB) (tick : ℕ) (r : Item) : DB :=
  let db1 :=
    match r.price_usd, r.rarity with
    | some p, some ra => if tick = 1 then set_floor db ra p else db
    | _, _ => db
  match r.price_usd, r.rarity with
  | some p, some ra => if tick % 3 = 0 then set_floor db1 ra p else db1
  | _, _ => db1

/-- One full pass of the `for r in results` body of `run` for a single
enriched result: the alert branch followed by the refresh rules. -/
def stepItem (env : Env) (db : DB) (tick : ℕ) (r : Item) (sendOk : Bool) :
    StepResult :=
  let res := alertPhase env db r sendOk
  { res with db := refreshPhase res.db tick r }

/-- The specification's alert condition, written from the spec text: both a
converted price and a stored floor are present, and
`round(price, 2) <= round(floor * (1 - threshold/100), 2)`. -/
def specAlertFires (db : DB) (r : Item) : Prop :=
  ∃ ra p f, r.rarity = some ra ∧ r.price_usd = some p ∧
    get_floor db ra = some f ∧
    round2 p ≤ round2 (f * (1 - get_threshold db ra / 100))

/-- The numeric core of the `/set` handler (lines 495-504): reject unless
`0 < percent <= 100`, otherwise persist via `set_threshold`.  The boolean
is `true` on acceptance and `false` when the usage reply is sent. -/
def handleSetPercent (db : DB) (rarity : String) (percent : ℚ) : DB × Bool :=
  if 0 < percent ∧ percent ≤ 100 then (set_threshold db rarity percent, true)
  else (db, false)

/-- Base-10 integer parsing, modelling Python `int(str(value))` on an
ASCII digit string with an optional leading sign (the grouping-underscore
and surrounding-whitespace liberties of `int` are not exercised by the
program's inputs). -/
def pyParseInt (s : String) : Option ℤ :=
  match s.data with
  | [] => none
  | c :: rest =>
    if c == '-' then
      if rest ≠ [] ∧ rest.all Char.isDigit then
        some (-(Int.ofNat (rest.foldl (fun acc d => acc * 10 + (d.toNat - 48)) 0)))
      else none
    else if c == '+' then
      if rest ≠ [] ∧ rest.all Char.isDigit then
        some (Int.ofNat (rest.foldl (fun acc d => acc * 10 + (d.toNat - 48)) 0))
      else none
    else
      if (c :: rest).all Char.isDigit then
        some (Int.ofNat ((c :: rest).foldl (fun acc d => acc * 10 + (d.toNat - 48)) 0))
      else none

/-- Python `s.rjust(w, c)`: left-pad to width `w` with `c`. -/
def rjust (l : List Char) (w : ℕ) (c : Char) : List Char :=
  List.replicate (w - l.length) c ++ l

/-- `_safe_decimal_str` (lines 118-128): parse the input as a base-10
integer, split its decimal rendering at `decimals` digits from the right,
strip trailing fractional zeros, and return `None` when the parse fails. -/
def safe_decimal_str (value : String) (decimals : ℤ) : Option String :=
  match pyParseInt value with
  | none => none
  | some raw =>
    if decimals ≤ 0 then some (toString raw)
    else
      let d := decimals.toNat
      let s := rjust (toString raw).data (d + 1) '0'
      let w := s.take (s.length - d)
      let whole := if w = [] then ['0'] else w
      let frac := ((s.drop (s.length - d)).reverse.dropWhile (fun c => c == '0')).reverse
      if frac = [] then some whole.asString
      else some (whole ++ '.' :: frac).asString

/-- The backtick character, as stripped by `_normalize_ipfs`. -/
def btick : Char := Char.ofNat 96

/-- Test for the backtick character. -/
def isBtick (c : Char) : Bool := c == btick

/-- ASCII whitespace, modelling the characters Python `str.strip()`
removes on the program's inputs. -/
def pySpace (c : Char) : Bool :=
  c == ' ' || c == '\t' || c == '\n' || c == '\r' || c == '\x0b' || c == '\x0c'

/-- Python `s.strip(chars)`: drop the matching characters from both ends. -/
def stripEnds (p : Char → Bool) (l : List Char) : List Char :=
  ((l.dropWhile p).reverse.dropWhile p).reverse

/-- The characters of the `ipfs://` scheme tested by `startswith`. -/
def ipfsScheme : List Char := "ipfs://".toList

/-- The characters of the gateway URL head produced by the rewrite. -/
def gatewayHead : List Char := "https://ipfs.io/ipfs/".toList

/-- `_normalize_ipfs` (lines 163-167) on character lists: strip
whitespace, then backticks, then whitespace again; rewrite a leading
`ipfs://` to the `https://ipfs.io/ipfs/` gateway, else return the
stripped string. -/
def normalizeIpfsList (l : List Char) : List Char :=
  let s := stripEnds pySpace (stripEnds isBtick (stripEnds pySpace l))
  if ipfsScheme.isPrefixOf s then gatewayHead ++ s.drop 7 else s

/-- `_normalize_ipfs` on strings. -/
def normalize_ipfs (u : String) : String := (normalizeIpfsList u.data).asString

/-- A loosely-typed metadata JSON value as the extractor reads it: either a
string or some non-string value (which every `isinstance(v, str)` guard
rejects). -/
inductive PyV : Type
  | pstr : String → PyV
  | pother : PyV
deriving DecidableEq

/-- One entry of the metadata `mediaEntries` list, at the fields the
extractor reads.  `url` is `some` when the key holds a value (rendered
with `str`); the empty string is a falsy url. -/
structure MediaEntry where
  contentType : Option String
  sizeType : Option String
  url : Option String
deriving DecidableEq

/-- One entry of the metadata `attributes` list. -/
structure AttrEntry where
  key : Option String
  trait_type : Option String
  value : Option PyV
deriving DecidableEq

/-- The fields of a fetched metadata JSON object that
`extract_from_metadata` reads; an absent or non-list `mediaEntries` or
`attributes` is the empty list (as `data.get(...) or []` produces). -/
structure MetaJson where
  mediaEntries : List MediaEntry
  name : Option PyV
  title : Option PyV
  image : Option PyV
  image_url : Option PyV
  imageURI : Option PyV
  attributes : List AttrEntry
deriving DecidableEq

/-- The dict returned by `extract_from_metadata`. -/
structure MetaExtract where
  name : Option String
  image_url : Option String
  rarity : Option String
deriving DecidableEq

/-- ASCII uppercase of a character, as Python `.upper()` acts on the
program's ASCII inputs. -/
def pyUpperChar (c : Char) : Char :=
  if 97 ≤ c.toNat ∧ c.toNat ≤ 122 then Char.ofNat (c.toNat - 32) else c

/-- ASCII uppercase of a string. -/
def pyUpper (s : String) : String := (s.data.map pyUpperChar).asString

/-- ASCII lowercase of a character. -/
def pyLowerChar (c : Char) : Char :=
  if 65 ≤ c.toNat ∧ c.toNat ≤ 90 then Char.ofNat (c.toNat + 32) else c

/-- ASCII lowercase of a string, as Python `.lower()` acts on the
program's ASCII inputs. -/
def pyLower (s : String) : String := (s.data.map pyLowerChar).asString

/-- Whether a media entry is an IMAGE of the given size with a truthy url
(the test on line 199). -/
def entryMatches (size : String) (m : MediaEntry) : Bool :=
  (pyUpper (m.contentType.getD "") == "IMAGE") &&
    (pyUpper (m.sizeType.getD "") == size) && truthyOpt m.url

/-- One size pass of the loop of lines 197-203: the first entry matching
the size (IMAGE content type, truthy raw url) overwrites the accumulated
`image` with its normalized url; no match leaves it unchanged. -/
def mediaStep (img : Option String) (entries : List MediaEntry)
    (size : String) : Option String :=
  match entries.find? (entryMatches size) with
  | some m => some (normalize_ipfs (m.url.getD ""))
  | none => img

/-- The media-entry image search of lines 194-203: sizes tried in the
order ORIGINAL, BIG, PREVIEW over a non-empty entry list; after each size
the `if image: break` re-check (line 202) stops only on a truthy value,
so a match whose url normalizes to the empty string falls through to the
next size. -/
def mediaImage (entries : List MediaEntry) : Option String :=
  if entries.isEmpty then none
  else
    let i1 := mediaStep none entries "ORIGINAL"
    if truthyOpt i1 then i1
    else
      let i2 := mediaStep i1 entries "BIG"
      if truthyOpt i2 then i2
      else mediaStep i2 entries "PREVIEW"

/-- First string value among the flat keys `image`, `image_url`,
`imageURI` (loop of lines 209-213, before normalization). -/
def flatFirstStr (d : MetaJson) : Option String :=
  match d.image with
  | some (PyV.pstr s) => some s
  | _ =>
    match d.image_url with
    | some (PyV.pstr s) => some s
    | _ =>
      match d.imageURI with
      | some (PyV.pstr s) => some s
      | _ => none

/-- First string value among the keys `name`, `title` (lines 204-208). -/
def firstNameStr (d : MetaJson) : Option String :=
  match d.name with
  | some (PyV.pstr s) => some s
  | _ =>
    match d.title with
    | some (PyV.pstr s) => some s
    | _ => none

/-- Python `a or b` on an optional string against a string fallback:
`None` and `""` fall through. -/
def orElseStr (x : Option String) (y : String) : String :=
  match x with
  | some s => if s == "" then y else s
  | none => y

/-- The attribute key tested for rarity: `a.get("key") or
a.get("trait_type") or ""`. -/
def attrKeyStr (a : AttrEntry) : String :=
  orElseStr a.key (orElseStr a.trait_type "")

/-- Whether an attribute entry is the rarity attribute (line 217). -/
def attrIsRarity (a : AttrEntry) : Bool := pyLower (attrKeyStr a) == "rarity"

/-- The rarity extracted from the attribute list (lines 214-221): the
first matching attribute decides, and yields `None` when its value is not
a string. -/
def attrsRarity (attrs : List AttrEntry) : Option String :=
  match attrs.find? attrIsRarity with
  | some a =>
    match a.value with
    | some (PyV.pstr s) => some s
    | _ => none
  | none => none

/-- `extract_from_metadata` (lines 187-222) on an already-fetched metadata
object: the media-entry image search, then the name keys, then the flat
image keys (which overwrite any media-entry result), then the rarity
attribute. -/
def extract_from_metadata (d : MetaJson) : MetaExtract :=
  let image0 := mediaImage d.mediaEntries
  let name := firstNameStr d
  let image :=
    match flatFirstStr d with
    | some v => some (normalize_ipfs v)
    | none => image0
  let rarity := attrsRarity d.attributes
  ⟨name, image, rarity⟩


/-- A delivery environment with both a bot and a channel configured. -/
def envCX : Env := ⟨true, true⟩

/-- A store holding only a floor of 100 for Rare. -/
def dbFloor100 : DB := set_floor emptyDB "Rare" 100

/-- A store holding a floor of 100 for Rare and a notification record of 40
for item X. -/
def dbFloorNotif : DB := set_notified (set_floor emptyDB "Rare" 100) "X" 40

/-- A Rare item at 50 USD with an id but no image URL. -/
def itemNoImage : Item := ⟨some "Rare", some 50, some "X", none⟩

/-- A Rare item at 39.999 USD with an id and an image URL. -/
def itemFine : Item := ⟨some "Rare", some (39999/1000), some "X", some "http://img"⟩

/-- A Rare item at 50 USD with an image URL but no id. -/
def itemNoId : Item := ⟨some "Rare", some 50, none, some "http://img"⟩

/-- A metadata object with both an ORIGINAL IMAGE media entry and a flat
`image` key. -/
def metaCX : MetaJson :=
  ⟨[⟨some "IMAGE", some "ORIGINAL", some "ipfs://orig"⟩], none, none,
    some (PyV.pstr "ipfs://flat"), none, none, []⟩

/-- A metadata object whose ORIGINAL IMAGE entry has a url normalizing to
the empty string, followed by a BIG IMAGE entry. -/
def metaFalsy : MetaJson :=
  ⟨[⟨some "IMAGE", some "ORIGINAL", some "`"⟩,
    ⟨some "IMAGE", some "BIG", some "http://b"⟩], none, none, none, none,
    none, []⟩

/-! ### Store lemmas -/

lemma get_floor_set_floor_self (db : DB) (ra : String) (p : ℚ) :
    get_floor (set_floor db ra p) ra = some (round2 p) := by
  unfold get_floor set_floor updateFn
  cases h : db.floors ra <;> simp [h]

lemma set_floor_notif (db : DB) (ra : String) (p : ℚ) :
    (set_floor db ra p).notifications = db.notifications := rfl

lemma set_notified_floors (db : DB) (iid : String) (p : ℚ) :
    (set_notified db iid p).floors = db.floors := rfl

lemma set_notified_self (db : DB) (iid : String) (p : ℚ) :
    (set_notified db iid p).notifications iid = some (round2 p) := by
  simp [set_notified, updateFn]

lemma get_threshold_set_threshold_self (db : DB) (ra : String) (q : ℚ) :
    get_threshold (set_threshold db ra q) ra = q := by
  unfold get_threshold set_threshold updateFn
  cases h : db.floors ra <;> simp [h]

lemma get_floor_set_threshold_self (db : DB) (ra : String) (q : ℚ) :
    get_floor (set_threshold db ra q) ra = get_floor db ra := by
  unfold get_floor set_threshold updateFn
  cases h : db.floors ra <;> simp [h]

/-- C6: a threshold write is rejected with the usage reply and no state
change for `percent <= 0` or `percent > 100`; for `percent` in `(0,100]`
it is accepted and persisted, overwriting any prior threshold for that
rarity while leaving the stored floor price for that rarity unchanged. -/
theorem threshold_write_validation (db : DB) (ra : String) (percent : ℚ) :
    (percent ≤ 0 ∨ 100 < percent → handleSetPercent db ra percent = (db, false)) ∧
    (0 < percent → percent ≤ 100 →
      (handleSetPercent db ra percent).2 = true ∧
      get_threshold (handleSetPercent db ra percent).1 ra = percent ∧
      get_floor (handleSetPercent db ra percent).1 ra = get_floor db ra) := by
  constructor
  · intro h
    have h' : ¬(0 < percent ∧ percent ≤ 100) := by
      rcases h with h | h
      · exact fun hc => absurd hc.1 (not_lt.mpr h)
      · exact fun hc => absurd hc.2 (not_le.mpr h)
    simp [handleSetPercent, h']
  · intro h1 h2
    simp [handleSetPercent, h1, h2, get_threshold_set_threshold_self,
      get_floor_set_threshold_self]

/-- Witness for C6: rejection at 101 and acceptance at 30 on a store that
already holds a floor of 100 for Rare. -/
theorem threshold_write_validation_witness :
    (handleSetPercent (set_floor emptyDB "Rare" 100) "Rare" 101 =
      (set_floor emptyDB "Rare" 100, false)) ∧
    ((handleSetPercent (set_floor emptyDB "Rare" 100) "Rare" 30).2 = true ∧
      get_threshold (handleSetPercent (set_floor emptyDB "Rare" 100) "Rare" 30).1 "Rare" = 30 ∧
      get_floor (handleSetPercent (set_floor emptyDB "Rare" 100) "Rare" 30).1 "Rare" =
        get_floor (set_floor emptyDB "Rare" 100) "Rare") :=
  ⟨(threshold_write_validation (set_floor emptyDB "Rare" 100) "Rare" 101).1
      (Or.inr (by norm_num)),
   (threshold_write_validation (set_floor emptyDB "Rare" 100) "Rare" 30).2
      (by norm_num) (by norm_num)⟩

/-- C7: `_safe_decimal_str` interprets its input as a base-10 integer,
splits at 18 digits, strips trailing fractional zeros, and returns `None`
for non-integer-parseable input, as on the three specified examples. -/
theorem safe_decimal_str_examples :
    safe_decimal_str "1000000000000000000" 18 = some "1" ∧
    safe_decimal_str "1500000000000000000" 18 = some "1.5" ∧
    safe_decimal_str "abc" 18 = none := by
  refine ⟨?_, ?_, ?_⟩ <;> rfl

/-! ### Alert-branch lemmas -/

lemma alertPhase_fired_iff (env : Env) (db : DB) (r : Item) (sendOk : Bool) :
    (alertPhase env db r sendOk).fired = true ↔ specAlertFires db r := by
  unfold alertPhase specAlertFires
  cases hra : r.rarity <;> cases hp : r.price_usd <;> simp only [hra, hp]
  · simp
  · simp
  · rename_i ra
    cases hf : get_floor db ra <;> simp [hf]
  · rename_i ra p
    cases hf : get_floor db ra
    · simp [hf]
    · rename_i f
      simp only [hf]
      by_cases hle : round2 p ≤ round2 (f * (1 - get_threshold db ra / 100))
      · simp only [if_pos hle, apply_ite StepResult.fired]
        simp
        exact ⟨f, hf, hle⟩
      · simp only [if_neg hle]
        simp only [Bool.false_eq_true, false_iff]
        rintro ⟨ra', p', f', h1, h2, h3, h4⟩
        cases h1; cases h2
        rw [hf] at h3
        cases h3
        exact hle h4

lemma get_floor_set_notified (db : DB) (iid : String) (p : ℚ) (ra : String) :
    get_floor (set_notified db iid p) ra = get_floor db ra := rfl

lemma stepItem_fired (env : Env) (db : DB) (tick : ℕ) (r : Item) (s : Bool) :
    (stepItem env db tick r s).fired = (alertPhase env db r s).fired := rfl

lemma stepItem_shouldNotify (env : Env) (db : DB) (tick : ℕ) (r : Item) (s : Bool) :
    (stepItem env db tick r s).shouldNotify = (alertPhase env db r s).shouldNotify := rfl

lemma stepItem_attempted (env : Env) (db : DB) (tick : ℕ) (r : Item) (s : Bool) :
    (stepItem env db tick r s).attempted = (alertPhase env db r s).attempted := rfl

lemma stepItem_delivered (env : Env) (db : DB) (tick : ℕ) (r : Item) (s : Bool) :
    (stepItem env db tick r s).delivered = (alertPhase env db r s).delivered := rfl

lemma stepItem_db (env : Env) (db : DB) (tick : ℕ) (r : Item) (s : Bool) :
    (stepItem env db tick r s).db = refreshPhase (alertPhase env db r s).db tick r := rfl

lemma alertPhase_db_not_delivered (env : Env) (db : DB) (r : Item) (sendOk : Bool) :
    (alertPhase env db r sendOk).delivered = false → (alertPhase env db r sendOk).db = db := by
  unfold alertPhase
  cases hra : r.rarity <;> cases hp : r.price_usd <;> simp only [hra, hp]
  · simp
  · simp
  · rename_i ra
    cases hf : get_floor db ra <;> simp [hf]
  · rename_i ra p
    cases hf : get_floor db ra
    · simp [hf]
    · rename_i f
      simp only [hf]
      split_ifs <;> simp

lemma alertPhase_delivered_imp_attempted (env : Env) (db : DB) (r : Item) (sendOk : Bool) :
    (alertPhase env db r sendOk).delivered = true → (alertPhase env db r sendOk).attempted = true := by
  unfold alertPhase
  cases hra : r.rarity <;> cases hp : r.price_usd <;> simp only [hra, hp]
  · simp
  · simp
  · rename_i ra
    cases hf : get_floor db ra <;> simp [hf]
  · rename_i ra p
    cases hf : get_floor db ra
    · simp [hf]
    · rename_i f
      simp only [hf]
      split_ifs <;> simp

lemma alertPhase_delivered_imp_fired (env : Env) (db : DB) (r : Item) (sendOk : Bool) :
    (alertPhase env db r sendOk).delivered = true → (alertPhase env db r sendOk).fired = true := by
  unfold alertPhase
  cases hra : r.rarity <;> cases hp : r.price_usd <;> simp only [hra, hp]
  · simp
  · simp
  · rename_i ra
    cases hf : get_floor db ra <;> simp [hf]
  · rename_i ra p
    cases hf : get_floor db ra
    · simp [hf]
    · rename_i f
      simp only [hf]
      split_ifs <;> simp

lemma alertPhase_attempted_imp_fired (env : Env) (db : DB) (r : Item) (sendOk : Bool) :
    (alertPhase env db r sendOk).attempted = true → (alertPhase env db r sendOk).fired = true := by
  unfold alertPhase
  cases hra : r.rarity <;> cases hp : r.price_usd <;> simp only [hra, hp]
  · simp
  · simp
  · rename_i ra
    cases hf : get_floor db ra <;> simp [hf]
  · rename_i ra p
    cases hf : get_floor db ra
    · simp [hf]
    · rename_i f
      simp only [hf]
      split_ifs <;> simp

lemma alertPhase_attempted_iff (env : Env) (db : DB) (r : Item) (sendOk : Bool) :
    (alertPhase env db r sendOk).attempted = true ↔
      ((alertPhase env db r sendOk).fired = true ∧
        (alertPhase env db r sendOk).shouldNotify = true ∧
        env.bot = true ∧ env.channel = true ∧ truthyOpt r.image_url = true) := by
  unfold alertPhase
  cases hra : r.rarity <;> cases hp : r.price_usd <;> simp only [hra, hp]
  · simp
  · simp
  · rename_i ra
    cases hf : get_floor db ra <;> simp [hf]
  · rename_i ra p
    cases hf : get_floor db ra
    · simp [hf]
    · rename_i f
      simp only [hf]
      split_ifs <;> simp_all

lemma alertPhase_sn_of_record (env : Env) (db : DB) (r : Item) (sendOk : Bool)
    (p lastp : ℚ) (iid : String) (hp : r.price_usd = some p)
    (hid : r.item_id = some iid) (hlast : get_notified db iid = some lastp)
    (hfired : (alertPhase env db r sendOk).fired = true) :
    (alertPhase env db r sendOk).shouldNotify = decide (p < lastp) := by
  unfold alertPhase at hfired ⊢
  cases hra : r.rarity <;> simp only [hra, hp] at hfired ⊢
  · simp at hfired
  · rename_i ra
    cases hf : get_floor db ra
    · simp [hf] at hfired
    · rename_i f
      simp only [hf] at hfired ⊢
      split_ifs at hfired ⊢ <;> simp_all [hid, hlast]

lemma alertPhase_delivered_floor (env : Env) (db : DB) (r : Item) (sendOk : Bool)
    (ra : String) (p : ℚ) (hra : r.rarity = some ra) (hp : r.price_usd = some p)
    (hdel : (alertPhase env db r sendOk).delivered = true) :
    get_floor (alertPhase env db r sendOk).db ra = some (round2 p) := by
  unfold alertPhase at hdel ⊢
  simp only [hra, hp] at hdel ⊢
  cases hf : get_floor db ra
  · simp [hf] at hdel
  · rename_i f
    simp only [hf] at hdel ⊢
    split_ifs at hdel ⊢ <;> simp_all
    cases hid : r.item_id <;>
      simp [hid, get_floor_set_notified, get_floor_set_floor_self]

lemma alertPhase_delivered_notif (env : Env) (db : DB) (r : Item) (sendOk : Bool)
    (iid : String) (p : ℚ) (hid : r.item_id = some iid) (hp : r.price_usd = some p)
    (hdel : (alertPhase env db r sendOk).delivered = true) :
    (alertPhase env db r sendOk).db.notifications iid = some (round2 p) := by
  unfold alertPhase at hdel ⊢
  cases hra : r.rarity <;> simp only [hra, hp] at hdel ⊢
  · simp at hdel
  · rename_i ra
    cases hf : get_floor db ra
    · simp [hf] at hdel
    · rename_i f
      simp only [hf] at hdel ⊢
      split_ifs at hdel ⊢ <;> simp_all [hid, set_notified_self]

lemma refreshPhase_notifications (db : DB) (tick : ℕ) (r : Item) :
    (refreshPhase db tick r).notifications = db.notifications := by
  unfold refreshPhase
  cases hp : r.price_usd <;> cases hra : r.rarity <;> simp only [hp, hra] <;>
    split_ifs <;> simp [set_floor_notif]

lemma refreshPhase_floor_set (db : DB) (tick : ℕ) (r : Item) (ra : String) (p : ℚ)
    (hra : r.rarity = some ra) (hp : r.price_usd = some p)
    (h : tick = 1 ∨ tick % 3 = 0) :
    get_floor (refreshPhase db tick r) ra = some (round2 p) := by
  unfold refreshPhase
  simp only [hp, hra]
  rcases h with h | h
  · by_cases h3 : tick % 3 = 0 <;> simp [h, h3, get_floor_set_floor_self]
  · by_cases h1 : tick = 1 <;> simp [h, h1, get_floor_set_floor_self]

lemma refreshPhase_skip (db : DB) (tick : ℕ) (r : Item)
    (h1 : tick ≠ 1) (h3 : tick % 3 ≠ 0) :
    refreshPhase db tick r = db := by
  unfold refreshPhase
  cases hp : r.price_usd <;> cases hra : r.rarity <;> simp [hp, hra, h1, h3]


lemma alertPhase_sn_of_id_none (env : Env) (db : DB) (r : Item) (sendOk : Bool)
    (hid : r.item_id = none)
    (hfired : (alertPhase env db r sendOk).fired = true) :
    (alertPhase env db r sendOk).shouldNotify = true := by
  unfold alertPhase at hfired ⊢
  cases hra : r.rarity <;> cases hp : r.price_usd <;> simp only [hra, hp] at hfired ⊢
  · simp at hfired
  · simp at hfired
  · simp at hfired
  · rename_i ra p
    cases hf : get_floor db ra
    · simp [hf] at hfired
    · rename_i f
      simp only [hf] at hfired ⊢
      split_ifs at hfired ⊢ <;> simp_all [hid]

lemma alertPhase_notif_of_id_none (env : Env) (db : DB) (r : Item) (sendOk : Bool)
    (hid : r.item_id = none) :
    (alertPhase env db r sendOk).db.notifications = db.notifications := by
  unfold alertPhase
  cases hra : r.rarity <;> cases hp : r.price_usd <;> simp only [hra, hp]
  rename_i ra p
  cases hf : get_floor db ra
  · simp [hf]
  · rename_i f
    simp only [hf]
    split_ifs <;> simp [hid, set_floor_notif]

/-! ### Claim theorems about the alert engine -/

/-- C1: for every rarity with a present converted price and a stored
floor, the alert fires if and only if
`round(priceInReference, 2) <= round(floorPrice * (1 - thresholdPercent/100), 2)`;
if either the converted price or the stored floor is absent, no alert is
evaluated on that tick. -/
theorem alert_fires_iff_rounded_threshold (env : Env) (db : DB) (tick : ℕ)
    (r : Item) (sendOk : Bool) :
    (stepItem env db tick r sendOk).fired = true ↔ specAlertFires db r :=
  alertPhase_fired_iff env db r sendOk

/-- C2: when the alert condition fires for an item that already has a
notification record, the alert is suppressed (and the notifications table
left unchanged) if the stored last-alerted price is at most the new
price; delivery, and the record update to the new price, happen only if
the new price is strictly below the stored value. -/
theorem dedup_requires_strictly_lower (env : Env) (db : DB) (tick : ℕ)
    (r : Item) (sendOk : Bool) (p lastp : ℚ) (iid : String)
    (hp : r.price_usd = some p) (hid : r.item_id = some iid)
    (hlast : get_notified db iid = some lastp) :
    ((stepItem env db tick r sendOk).fired = true → lastp ≤ p →
      (stepItem env db tick r sendOk).attempted = false ∧
      (stepItem env db tick r sendOk).db.notifications = db.notifications) ∧
    ((stepItem env db tick r sendOk).attempted = true → p < lastp) ∧
    ((stepItem env db tick r sendOk).delivered = true →
      p < lastp ∧
      (stepItem env db tick r sendOk).db.notifications iid = some (round2 p)) := by
  have hsn : (alertPhase env db r sendOk).fired = true →
      (alertPhase env db r sendOk).shouldNotify = decide (p < lastp) :=
    alertPhase_sn_of_record env db r sendOk p lastp iid hp hid hlast
  refine ⟨?_, ?_, ?_⟩
  · intro hfired hle
    rw [stepItem_fired] at hfired
    have hsn' := hsn hfired
    have hatt : (alertPhase env db r sendOk).attempted = false := by
      rcases h : (alertPhase env db r sendOk).attempted with _ | _
      · rfl
      · have := (alertPhase_attempted_iff env db r sendOk).mp h
        rw [hsn'] at this
        exact absurd (of_decide_eq_true this.2.1) (not_lt.mpr hle)
    refine ⟨by rw [stepItem_attempted]; exact hatt, ?_⟩
    have hdel : (alertPhase env db r sendOk).delivered = false := by
      rcases h : (alertPhase env db r sendOk).delivered with _ | _
      · rfl
      · rw [alertPhase_delivered_imp_attempted env db r sendOk h] at hatt
        exact absurd hatt (by simp)
    rw [stepItem_db, refreshPhase_notifications,
      alertPhase_db_not_delivered env db r sendOk hdel]
  · intro hatt
    rw [stepItem_attempted] at hatt
    have hfired := alertPhase_attempted_imp_fired env db r sendOk hatt
    have := (alertPhase_attempted_iff env db r sendOk).mp hatt
    rw [hsn hfired] at this
    exact of_decide_eq_true this.2.1
  · intro hdel
    rw [stepItem_delivered] at hdel
    have hatt := alertPhase_delivered_imp_attempted env db r sendOk hdel
    have hfired := alertPhase_attempted_imp_fired env db r sendOk hatt
    have := (alertPhase_attempted_iff env db r sendOk).mp hatt
    rw [hsn hfired] at this
    refine ⟨of_decide_eq_true this.2.1, ?_⟩
    rw [stepItem_db, refreshPhase_notifications]
    exact alertPhase_delivered_notif env db r sendOk iid p hid hp hdel

/-- Witness for C2: with a stored record at 40, a fired evaluation at 45
is suppressed and the table is unchanged. -/
theorem dedup_requires_strictly_lower_witness :
    ((stepItem ⟨true, true⟩ (set_notified (set_floor emptyDB "Rare" 100) "X" 40) 2
        ⟨some "Rare", some 45, some "X", some "http://img"⟩ true).fired = true →
      (40:ℚ) ≤ 45 →
      (stepItem ⟨true, true⟩ (set_notified (set_floor emptyDB "Rare" 100) "X" 40) 2
        ⟨some "Rare", some 45, some "X", some "http://img"⟩ true).attempted = false ∧
      (stepItem ⟨true, true⟩ (set_notified (set_floor emptyDB "Rare" 100) "X" 40) 2
        ⟨some "Rare", some 45, some "X", some "http://img"⟩ true).db.notifications =
        (set_notified (set_floor emptyDB "Rare" 100) "X" 40).notifications) ∧
    ((stepItem ⟨true, true⟩ (set_notified (set_floor emptyDB "Rare" 100) "X" 40) 2
        ⟨some "Rare", some 45, some "X", some "http://img"⟩ true).attempted = true →
      (45:ℚ) < 40) ∧
    ((stepItem ⟨true, true⟩ (set_notified (set_floor emptyDB "Rare" 100) "X" 40) 2
        ⟨some "Rare", some 45, some "X", some "http://img"⟩ true).delivered = true →
      (45:ℚ) < 40 ∧
      (stepItem ⟨true, true⟩ (set_notified (set_floor emptyDB "Rare" 100) "X" 40) 2
        ⟨some "Rare", some 45, some "X", some "http://img"⟩ true).db.notifications "X" =
        some (round2 45)) :=
  dedup_requires_strictly_lower ⟨true, true⟩
    (set_notified (set_floor emptyDB "Rare" 100) "X" 40) 2
    ⟨some "Rare", some 45, some "X", some "http://img"⟩ true 45 40 "X"
    rfl rfl (by norm_num [set_notified, set_floor, updateFn, get_notified, round2])

/-- Counterexample to C3: on a store with floor 100 for Rare, an item at
50 USD with no image URL fires the alert and passes the dedup check, yet
nothing is notified and neither the floor nor the notifications table is
updated (the claim predicts a floor of 50 and a new record). -/
theorem alert_commit_counterexample :
    (stepItem envCX dbFloor100 2 itemNoImage true).fired = true ∧
    (stepItem envCX dbFloor100 2 itemNoImage true).shouldNotify = true ∧
    (stepItem envCX dbFloor100 2 itemNoImage true).attempted = false ∧
    get_floor (stepItem envCX dbFloor100 2 itemNoImage true).db "Rare" = some 100 ∧
    ¬ get_floor (stepItem envCX dbFloor100 2 itemNoImage true).db "Rare" =
        some (round2 50) ∧
    (stepItem envCX dbFloor100 2 itemNoImage true).db.notifications "X" = none := by
  norm_num [stepItem, alertPhase, refreshPhase, get_floor, get_threshold,
    get_notified, set_floor, set_notified, updateFn, emptyDB, truthyOpt, round2,
    envCX, dbFloor100, itemNoImage]

/-- C3 amended: when an alert fires and passes the dedup check, the
notification is attempted only if a bot and a channel are configured and
the item has a truthy image URL; if the delivery sequence completes
without raising, the rarity's floor is set to the new price and, when the
item has a string id, the notification record is written with the new
price; if delivery is not attempted or raises, the alert branch leaves
the store unchanged. -/
theorem alert_commit_amended (env : Env) (db : DB) (r : Item) (sendOk : Bool)
    (ra : String) (p : ℚ) (hra : r.rarity = some ra) (hp : r.price_usd = some p) :
    ((alertPhase env db r sendOk).attempted = true ↔
      ((alertPhase env db r sendOk).fired = true ∧
        (alertPhase env db r sendOk).shouldNotify = true ∧
        env.bot = true ∧ env.channel = true ∧ truthyOpt r.image_url = true)) ∧
    ((alertPhase env db r sendOk).delivered = true →
      get_floor (alertPhase env db r sendOk).db ra = some (round2 p) ∧
      ∀ iid, r.item_id = some iid →
        (alertPhase env db r sendOk).db.notifications iid = some (round2 p)) ∧
    ((alertPhase env db r sendOk).delivered = false →
      (alertPhase env db r sendOk).db = db) :=
  ⟨alertPhase_attempted_iff env db r sendOk,
   fun hdel =>
     ⟨alertPhase_delivered_floor env db r sendOk ra p hra hp hdel,
      fun iid hid => alertPhase_delivered_notif env db r sendOk iid p hid hp hdel⟩,
   alertPhase_db_not_delivered env db r sendOk⟩

/-- Witness for the amended C3 at a successful delivery of item X at
39.999 USD. -/
theorem alert_commit_amended_witness :
    ((alertPhase envCX dbFloorNotif itemFine true).attempted = true ↔
      ((alertPhase envCX dbFloorNotif itemFine true).fired = true ∧
        (alertPhase envCX dbFloorNotif itemFine true).shouldNotify = true ∧
        envCX.bot = true ∧ envCX.channel = true ∧
        truthyOpt itemFine.image_url = true)) ∧
    ((alertPhase envCX dbFloorNotif itemFine true).delivered = true →
      get_floor (alertPhase envCX dbFloorNotif itemFine true).db "Rare" =
        some (round2 (39999/1000)) ∧
      ∀ iid, itemFine.item_id = some iid →
        (alertPhase envCX dbFloorNotif itemFine true).db.notifications iid =
          some (round2 (39999/1000))) ∧
    ((alertPhase envCX dbFloorNotif itemFine true).delivered = false →
      (alertPhase envCX dbFloorNotif itemFine true).db = dbFloorNotif) :=
  alert_commit_amended envCX dbFloorNotif itemFine true "Rare" (39999/1000) rfl rfl

/-- C4: for an item with a rarity and a present converted price, the
floor is set (to the rounded new price) on tick 1 and on every tick
divisible by 3, independently of whether an alert fired; on every other
tick on which no alert fires the floors table is unchanged. -/
theorem floor_refresh_cadence (env : Env) (db : DB) (tick : ℕ) (r : Item)
    (sendOk : Bool) (ra : String) (p : ℚ)
    (hra : r.rarity = some ra) (hp : r.price_usd = some p) :
    ((tick = 1 ∨ tick % 3 = 0) →
      get_floor (stepItem env db tick r sendOk).db ra = some (round2 p)) ∧
    (tick ≠ 1 → tick % 3 ≠ 0 → (stepItem env db tick r sendOk).fired = false →
      (stepItem env db tick r sendOk).db.floors = db.floors) := by
  constructor
  · intro h
    rw [stepItem_db]
    exact refreshPhase_floor_set _ tick r ra p hra hp h
  · intro h1 h3 hfired
    rw [stepItem_fired] at hfired
    have hdel : (alertPhase env db r sendOk).delivered = false := by
      rcases h : (alertPhase env db r sendOk).delivered with _ | _
      · rfl
      · rw [alertPhase_delivered_imp_fired env db r sendOk h] at hfired
        exact absurd hfired (by simp)
    rw [stepItem_db, refreshPhase_skip _ tick r h1 h3,
      alertPhase_db_not_delivered env db r sendOk hdel]

/-- Witness for C4: on tick 3 from an empty store the floor for Rare is
set to 50. -/
theorem floor_refresh_cadence_witness :
    (3 = 1 ∨ 3 % 3 = 0) ∧
    get_floor (stepItem envCX emptyDB 3 itemNoImage true).db "Rare" =
      some (round2 50) :=
  ⟨Or.inr rfl,
   (floor_refresh_cadence envCX emptyDB 3 itemNoImage true "Rare" 50 rfl rfl).1
     (Or.inr rfl)⟩

/-- C10: if an item has no string id, the dedup lookup is skipped and the
stored last-alerted price is treated as absent: the notifications table
is never consulted or written for it, the dedup verdict is always
positive when the alert fires, and (with a bot, a channel and an image
URL present) the notification is attempted on every tick on which the
alert condition holds. -/
theorem missing_id_skips_dedup (env : Env) (db : DB) (tick : ℕ) (r : Item)
    (sendOk : Bool) (hid : r.item_id = none) :
    (stepItem env db tick r sendOk).db.notifications = db.notifications ∧
    ((stepItem env db tick r sendOk).fired = true →
      (stepItem env db tick r sendOk).shouldNotify = true) ∧
    ((stepItem env db tick r sendOk).fired = true → env.bot = true →
      env.channel = true → truthyOpt r.image_url = true →
      (stepItem env db tick r sendOk).attempted = true) := by
  refine ⟨?_, ?_, ?_⟩
  · rw [stepItem_db, refreshPhase_notifications]
    exact alertPhase_notif_of_id_none env db r sendOk hid
  · intro hfired
    rw [stepItem_fired] at hfired
    rw [stepItem_shouldNotify]
    exact alertPhase_sn_of_id_none env db r sendOk hid hfired
  · intro hfired hb hc hi
    rw [stepItem_fired] at hfired
    rw [stepItem_attempted]
    exact (alertPhase_attempted_iff env db r sendOk).mpr
      ⟨hfired, alertPhase_sn_of_id_none env db r sendOk hid hfired, hb, hc, hi⟩

/-- Witness for C10: an id-less Rare item at 50 on a store with floor 100
leaves the notifications table unchanged and is attempted. -/
theorem missing_id_skips_dedup_witness :
    (stepItem envCX dbFloor100 2 itemNoId true).db.notifications =
      dbFloor100.notifications ∧
    ((stepItem envCX dbFloor100 2 itemNoId true).fired = true →
      (stepItem envCX dbFloor100 2 itemNoId true).shouldNotify = true) ∧
    ((stepItem envCX dbFloor100 2 itemNoId true).fired = true →
      envCX.bot = true → envCX.channel = true →
      truthyOpt itemNoId.image_url = true →
      (stepItem envCX dbFloor100 2 itemNoId true).attempted = true) :=
  missing_id_skips_dedup envCX dbFloor100 2 itemNoId true rfl

/-- Counterexample to C5: with a stored last-alerted price of 40 for item
X, a new evaluation at 39.999 USD is delivered, although the rounded new
price equals 40 and a 2-decimal-rounded dedup comparison would suppress
it: the dedup comparison uses the unrounded price. -/
theorem rounding_dedup_counterexample :
    (stepItem envCX dbFloorNotif 2 itemFine true).delivered = true ∧
    round2 (39999/1000) = 40 ∧
    ¬ round2 (39999/1000) < (40:ℚ) ∧
    get_notified dbFloorNotif "X" = some 40 := by
  norm_num [stepItem, alertPhase, refreshPhase, get_floor, get_threshold,
    get_notified, set_floor, set_notified, updateFn, emptyDB, truthyOpt, round2,
    envCX, dbFloorNotif, itemFine]
  decide

/-- C5 amended: `set_floor` and `set_notified` persist 2-decimal-rounded
values and the alert comparison rounds both sides, but the dedup check
compares the unrounded new price against the stored last-alerted price. -/
theorem rounding_policy (env : Env) (db : DB) (tick : ℕ) (r : Item)
    (sendOk : Bool) (ra iid : String) (p lastp : ℚ) :
    get_floor (set_floor db ra p) ra = some (round2 p) ∧
    (set_notified db iid p).notifications iid = some (round2 p) ∧
    ((stepItem env db tick r sendOk).fired = true ↔ specAlertFires db r) ∧
    (r.price_usd = some p → r.item_id = some iid →
      get_notified db iid = some lastp →
      ((stepItem env db tick r sendOk).attempted = true ↔
        ((stepItem env db tick r sendOk).fired = true ∧ p < lastp ∧
          env.bot = true ∧ env.channel = true ∧
          truthyOpt r.image_url = true))) := by
  refine ⟨get_floor_set_floor_self db ra p, set_notified_self db iid p,
    alertPhase_fired_iff env db r sendOk, ?_⟩
  intro hp hid hlast
  rw [stepItem_attempted, stepItem_fired]
  constructor
  · intro hatt
    have hfired := alertPhase_attempted_imp_fired env db r sendOk hatt
    have hiff := (alertPhase_attempted_iff env db r sendOk).mp hatt
    rw [alertPhase_sn_of_record env db r sendOk p lastp iid hp hid hlast hfired]
      at hiff
    exact ⟨hfired, of_decide_eq_true hiff.2.1, hiff.2.2.1, hiff.2.2.2.1,
      hiff.2.2.2.2⟩
  · rintro ⟨hfired, hlt, hb, hc, hi⟩
    refine (alertPhase_attempted_iff env db r sendOk).mpr ⟨hfired, ?_, hb, hc, hi⟩
    rw [alertPhase_sn_of_record env db r sendOk p lastp iid hp hid hlast hfired]
    exact decide_eq_true hlt

/-- Witness for the amended C5 at the 39.999-vs-40 instance. -/
theorem rounding_policy_witness :
    get_floor (set_floor dbFloorNotif "Rare" (39999/1000)) "Rare" =
      some (round2 (39999/1000)) ∧
    (set_notified dbFloorNotif "X" (39999/1000)).notifications "X" =
      some (round2 (39999/1000)) ∧
    ((stepItem envCX dbFloorNotif 2 itemFine true).fired = true ↔
      specAlertFires dbFloorNotif itemFine) ∧
    ((stepItem envCX dbFloorNotif 2 itemFine true).attempted = true ↔
      ((stepItem envCX dbFloorNotif 2 itemFine true).fired = true ∧
        (39999/1000 : ℚ) < 40 ∧ envCX.bot = true ∧ envCX.channel = true ∧
        truthyOpt itemFine.image_url = true)) := by
  have h := rounding_policy envCX dbFloorNotif 2 itemFine true "Rare" "X"
    (39999/1000) 40
  exact ⟨h.1, h.2.1, h.2.2.1, h.2.2.2 rfl rfl
    (by norm_num [dbFloorNotif, set_notified, set_floor, updateFn, get_notified,
      round2])⟩

/-! ### Metadata image extraction (C9) -/

/-- The `if image: break` re-check of line 202: an ORIGINAL match whose
url normalizes to the empty string does not end the size search, and the
BIG entry's url is returned. -/
lemma mediaImage_falsy_url_falls_through :
    mediaImage metaFalsy.mediaEntries = some "http://b" ∧
    (extract_from_metadata metaFalsy).image_url = some "http://b" := by
  refine ⟨rfl, rfl⟩

/-- Counterexample to C9: with an ORIGINAL IMAGE media entry and a flat
`image` key both present, the extractor returns the normalized flat key,
not the media-entry match. -/
theorem metadata_image_counterexample :
    mediaImage metaCX.mediaEntries = some "https://ipfs.io/ipfs/orig" ∧
    (extract_from_metadata metaCX).image_url = some "https://ipfs.io/ipfs/flat" ∧
    ¬ (extract_from_metadata metaCX).image_url = mediaImage metaCX.mediaEntries := by
  refine ⟨rfl, rfl, by decide⟩

/-- C9 amended: the flat keys `image`/`image_url`/`imageURI` take
precedence (the first string among them, normalized, is returned whenever
one exists); the ORIGINAL > BIG > PREVIEW media-entry match is returned
only when no flat key holds a string. -/
theorem metadata_image_amended (d : MetaJson) :
    (∀ v, flatFirstStr d = some v →
      (extract_from_metadata d).image_url = some (normalize_ipfs v)) ∧
    (flatFirstStr d = none →
      (extract_from_metadata d).image_url = mediaImage d.mediaEntries) := by
  constructor
  · intro v hv
    simp [extract_from_metadata, hv]
  · intro hv
    simp [extract_from_metadata, hv]

/-- Witness for the amended C9 at the two-source metadata object. -/
theorem metadata_image_amended_witness :
    flatFirstStr metaCX = some "ipfs://flat" ∧
    (extract_from_metadata metaCX).image_url =
      some (normalize_ipfs "ipfs://flat") :=
  ⟨rfl, (metadata_image_amended metaCX).1 "ipfs://flat" rfl⟩

/-! ### URI normalization idempotence (C8) -/

/-- Counterexample to C8: a backtick guarded by inner whitespace survives
the first normalization pass and is stripped by the second, so
`_normalize_ipfs` is not idempotent. -/
theorem normalize_ipfs_idempotent_counterexample :
    normalize_ipfs "` `x" = "`x" ∧
    normalize_ipfs (normalize_ipfs "` `x") = "x" ∧
    ¬ normalize_ipfs (normalize_ipfs "` `x") = normalize_ipfs "` `x" := by
  refine ⟨rfl, rfl, by decide⟩

/-- No character of a list satisfies `p` after `dropWhile p` at its head. -/
lemma head?_dropWhile_not (p : Char → Bool) :
    ∀ (l : List Char) (a : Char), (l.dropWhile p).head? = some a → p a = false := by
  intro l
  induction l with
  | nil => intro a h; simp [List.dropWhile_nil] at h
  | cons b t ih =>
    intro a h
    rcases hb : p b with _ | _
    · rw [List.dropWhile_cons, if_neg (by simp [hb])] at h
      simp at h
      rw [← h]
      exact hb
    · rw [List.dropWhile_cons, if_pos (by simp [hb])] at h
      exact ih a h

/-- `dropWhile` is the identity when the head does not satisfy `p`. -/
lemma dropWhile_eq_self_of_head (p : Char → Bool) (l : List Char)
    (h : ∀ a, l.head? = some a → p a = false) : l.dropWhile p = l := by
  cases l with
  | nil => rfl
  | cons b t =>
    rw [List.dropWhile_cons, if_neg]
    simp [h b rfl]

/-- A non-empty `dropWhile` keeps the last element. -/
lemma getLast?_dropWhile (p : Char → Bool) :
    ∀ (l : List Char), l.dropWhile p ≠ [] →
      (l.dropWhile p).getLast? = l.getLast? := by
  intro l
  induction l with
  | nil => intro h; simp [List.dropWhile_nil] at h
  | cons b t ih =>
    intro h
    rcases hb : p b with _ | _
    · rw [List.dropWhile_cons, if_neg (by simp [hb])]
    · rw [List.dropWhile_cons, if_pos (by simp [hb])] at h ⊢
      have ht : t ≠ [] := by
        intro he
        rw [he] at h
        simp [List.dropWhile_nil] at h
      rw [ih h, show b :: t = [b] ++ t from rfl,
        List.getLast?_append_of_ne_nil [b] ht]

/-- The first element of a list is clean of `p`. -/
def frontClean (p : Char → Bool) (l : List Char) : Prop :=
  ∀ a, l.head? = some a → p a = false

/-- The last element of a list is clean of `p`. -/
def backClean (p : Char → Bool) (l : List Char) : Prop :=
  ∀ a, l.getLast? = some a → p a = false

/-- A both-ends-clean list is a fixpoint of `stripEnds`. -/
lemma stripEnds_eq_self (p : Char → Bool) (l : List Char)
    (hf : frontClean p l) (hb : backClean p l) : stripEnds p l = l := by
  unfold stripEnds
  rw [dropWhile_eq_self_of_head p l hf]
  rw [dropWhile_eq_self_of_head p l.reverse (fun a ha => hb a (by
    rwa [← List.getLast?_eq_head?_reverse] at ha))]
  exact List.reverse_reverse l

/-- After `stripEnds` the front is clean. -/
lemma frontClean_stripEnds (p : Char → Bool) (l : List Char) :
    frontClean p (stripEnds p l) := by
  intro a ha
  unfold stripEnds at ha
  rw [← List.getLast?_eq_head?_reverse] at ha
  have hne : List.dropWhile p (List.reverse (List.dropWhile p l)) ≠ [] := by
    intro h
    rw [h] at ha
    simp at ha
  rw [getLast?_dropWhile p _ hne, ← List.head?_eq_getLast?_reverse] at ha
  exact head?_dropWhile_not p l a ha

/-- After `stripEnds` the back is clean. -/
lemma backClean_stripEnds (p : Char → Bool) (l : List Char) :
    backClean p (stripEnds p l) := by
  intro a ha
  unfold stripEnds at ha
  rw [← List.head?_eq_getLast?_reverse] at ha
  exact head?_dropWhile_not p _ a ha

/-- `stripEnds` is idempotent. -/
lemma stripEnds_idem (p : Char → Bool) (l : List Char) :
    stripEnds p (stripEnds p l) = stripEnds p l :=
  stripEnds_eq_self p _ (frontClean_stripEnds p l) (backClean_stripEnds p l)

/-- `stripEnds` only removes characters. -/
lemma mem_of_mem_stripEnds (p : Char → Bool) (l : List Char) {c : Char}
    (h : c ∈ stripEnds p l) : c ∈ l := by
  unfold stripEnds at h
  rw [List.mem_reverse] at h
  have h1 := (List.dropWhile_sublist p).subset h
  rw [List.mem_reverse] at h1
  exact (List.dropWhile_sublist p).subset h1

/-- A list with no `p` character is a fixpoint of `stripEnds`. -/
lemma stripEnds_eq_self_of_all (p : Char → Bool) (l : List Char)
    (h : ∀ c ∈ l, p c = false) : stripEnds p l = l := by
  apply stripEnds_eq_self
  · intro a ha
    exact h a (List.mem_of_mem_head? (by simp [ha]))
  · intro a ha
    refine h a ?_
    rw [List.getLast?_eq_head?_reverse] at ha
    rw [← List.mem_reverse]
    exact List.mem_of_mem_head? (by simp [ha])

/-- Cons lists with different heads are not prefixes. -/
lemma isPrefixOf_cons_of_ne (a b : Char) (x y : List Char)
    (h : (a == b) = false) : List.isPrefixOf (a :: x) (b :: y) = false := by
  simp [List.isPrefixOf, h]

/-- The gateway head contains no backtick. -/
lemma gatewayHead_btick_free : ∀ c ∈ gatewayHead, isBtick c = false := by decide

/-- Stripping backticks then whitespace collapses on backtick-free input. -/
lemma strip_chain_collapse (l : List Char) (hbt : ∀ c ∈ l, isBtick c = false) :
    stripEnds pySpace (stripEnds isBtick (stripEnds pySpace l)) =
      stripEnds pySpace l := by
  rw [stripEnds_eq_self_of_all isBtick _
    (fun c hc => hbt c (mem_of_mem_stripEnds pySpace l hc))]
  exact stripEnds_idem pySpace l

/-- `normalizeIpfsList` fixes a backtick-free, whitespace-stripped list
that does not start with the scheme. -/
lemma normalizeIpfsList_eq_self (m : List Char)
    (hbt : ∀ c ∈ m, isBtick c = false)
    (hw : stripEnds pySpace m = m)
    (hpre : ipfsScheme.isPrefixOf m = false) :
    normalizeIpfsList m = m := by
  unfold normalizeIpfsList
  rw [hw, stripEnds_eq_self_of_all isBtick m hbt, hw]
  simp [hpre]

/-- C8 amended: `_normalize_ipfs` is idempotent on every input string that
contains no backtick character; in general a backtick nested inside
whitespace can survive the first pass and be stripped by the second. -/
lemma normalizeIpfsList_idem (l : List Char)
    (hbt : ∀ c ∈ l, isBtick c = false) :
    normalizeIpfsList (normalizeIpfsList l) = normalizeIpfsList l := by
  have hsbt : ∀ c ∈ stripEnds pySpace l, isBtick c = false :=
    fun c hc => hbt c (mem_of_mem_stripEnds pySpace l hc)
  have hback := backClean_stripEnds pySpace l
  have houter : normalizeIpfsList l =
      if ipfsScheme.isPrefixOf (stripEnds pySpace l) then
        gatewayHead ++ (stripEnds pySpace l).drop 7
      else stripEnds pySpace l := by
    unfold normalizeIpfsList
    rw [strip_chain_collapse l hbt]
  rw [houter]
  by_cases hp : ipfsScheme.isPrefixOf (stripEnds pySpace l) = true
  · rw [if_pos hp]
    apply normalizeIpfsList_eq_self
    · intro c hc
      rcases List.mem_append.mp hc with h | h
      · exact gatewayHead_btick_free c h
      · exact hsbt c (List.mem_of_mem_drop h)
    · apply stripEnds_eq_self
      · intro a ha
        rw [List.head?_append_of_ne_nil gatewayHead (by decide)] at ha
        have h2 : some 'h' = some a := ha
        cases h2
        rfl
      · intro a ha
        by_cases hd : (stripEnds pySpace l).drop 7 = []
        · rw [hd, List.append_nil] at ha
          have h2 : some '/' = some a := ha
          cases h2
          rfl
        · rw [List.getLast?_append_of_ne_nil gatewayHead hd] at ha
          have hlift : ((stripEnds pySpace l).drop 7).getLast? =
              (stripEnds pySpace l).getLast? := by
            conv_rhs => rw [← List.take_append_drop 7 (stripEnds pySpace l)]
            rw [List.getLast?_append_of_ne_nil _ hd]
          rw [hlift] at ha
          exact hback a ha
    · rw [show gatewayHead = 'h' :: "ttps://ipfs.io/ipfs/".toList from rfl,
        show ipfsScheme = 'i' :: "pfs://".toList from rfl, List.cons_append]
      exact isPrefixOf_cons_of_ne 'i' 'h' _ _ rfl
  · rw [if_neg hp]
    refine normalizeIpfsList_eq_self _ hsbt (stripEnds_idem pySpace l) ?_
    rcases hq : ipfsScheme.isPrefixOf (stripEnds pySpace l) with _ | _
    · rfl
    · exact absurd hq hp

/-- C8 amended: `_normalize_ipfs` is idempotent on every input string that
contains no backtick character; in general a backtick nested inside
whitespace can survive the first pass and be stripped by the second. -/
theorem normalize_ipfs_idempotent_amended (u : String)
    (hbt : ∀ c ∈ u.data, isBtick c = false) :
    normalize_ipfs (normalize_ipfs u) = normalize_ipfs u := by
  unfold normalize_ipfs
  rw [show (List.asString (normalizeIpfsList u.data)).data =
    normalizeIpfsList u.data from rfl]
  exact congrArg List.asString (normalizeIpfsList_idem u.data hbt)

/-- Witness for the amended C8 at a backtick-free scheme URI. -/
theorem normalize_ipfs_idempotent_amended_witness :
    (∀ c ∈ ("ipfs://abc".data), isBtick c = false) ∧
    normalize_ipfs (normalize_ipfs "ipfs://abc") = normalize_ipfs "ipfs://abc" :=
  ⟨by decide, normalize_ipfs_idempotent_amended "ipfs://abc" (by decide)⟩
